import Mathlib

/-
Verification of the flightracker relay. The repository contains several
variants of the same relay server:

- server.js, first variant (lines 1-174): one global subscriber array
  (clients) and one global last sample (lastData); ingest checks the
  x-ingest-token header against process.env.INGEST_TOKEN (rejecting
  everything when the variable is unset), overwrites lastData with
  the body spread plus serverTs := Date.now(), and fans out to every
  client with a per-client try/catch.

- server.js, second variant (lines 175-254): per-flight channels, a Map
  from flight id to a Set of subscriber connections (clients) and a Map
  from flight id to the last JSON string (latest).  Ingest checks the
  token against TOKEN := env INGEST_TOKEN or a compiled-in default,
  stores the sample, and sends it to every subscriber of that flight
  with no try/catch around the write.  The stream handler replays the
  last sample, then registers the connection; on close it clears the
  keepalive interval and deletes the connection from the flight's set.

- server.mjs (and src/unnamed/part_001, identical ingest/stream code):
  per-flight liveData Map.  Ingest checks the token (env or default
  "changeme-ingest-token"), requires typeof lat/lon === "number",
  normalises the optional fields with Number(x || 0), and stores the
  datum.  The stream handler replays the latest datum and then re-sends
  the current datum every second on a timer (no push broadcast).

The embedding below translates each of these directly.  JSON strings
stored in the second variant's latest Map are modelled by the sample
records themselves (JSON.stringify is injective on the modelled data).
-/

namespace Flightracker

/-! ## Association lists (the JS Map objects) -/

/-- Lookup in an association list, modelling Map.get. -/
def lookupA {α : Type} : List (String × α) → String → Option α
  | [], _ => none
  | (k, v) :: rest, k2 => if k = k2 then some v else lookupA rest k2

/-- Update-or-append in an association list, modelling Map.set. -/
def setA {α : Type} : List (String × α) → String → α → List (String × α)
  | [], k, v => [(k, v)]
  | (k2, w) :: rest, k, v =>
      if k2 = k then (k, v) :: rest else (k2, w) :: setA rest k v

/-- Add an element to a JS Set (insertion order, no duplicates). -/
def addSet (l : List Nat) (x : Nat) : List Nat :=
  if x ∈ l then l else l ++ [x]

/-- Occurrence count of a subscriber id in a list. -/
def countN (sub : Nat) : List Nat → Nat
  | [] => 0
  | c :: rest => (if c = sub then 1 else 0) + countN sub rest

/-! ## Samples and bodies shared by the two server.js variants

A request body is an opaque payload (the spread of req.body minus the
serverTs key, modelled as a string) together with an optional client
serverTs.  The constructed sample has the same shape with serverTs
resolved. -/

/-- Request body for the server.js variants. -/
structure Body2 where
  data : String
  serverTs : Option Int
deriving DecidableEq, Repr

/-- A constructed telemetry sample for the server.js variants. -/
structure Sample2 where
  data : String
  serverTs : Int
deriving DecidableEq, Repr

/-- Second server.js variant: sample := spread of body with
serverTs := req.body.serverTs ?? Date.now(). -/
def mkSample2 (b : Body2) (now : Int) : Sample2 :=
  ⟨b.data, b.serverTs.getD now⟩

/-- First server.js variant: lastData := spread of body with
serverTs := Date.now(), unconditionally overwriting any client value. -/
def mkSample1 (b : Body2) (now : Int) : Sample2 :=
  ⟨b.data, now⟩

/-! ## Second server.js variant: per-flight channels -/

/-- State of the second server.js variant: the clients Map
(flight id to Set of subscriber connections), the latest Map
(flight id to last stored sample) and the set of live keepalive
timers, one per open subscriber connection. -/
structure V2State where
  clients : List (String × List Nat)
  latest : List (String × Sample2)
  timers : List Nat
deriving DecidableEq, Repr

/-- The subscriber set of a flight in the clients Map (empty if the
flight has no entry yet). -/
def clientsOfL (cl : List (String × List Nat)) (f : String) : List Nat :=
  (lookupA cl f).getD []

/-- The subscriber set of a flight in a state. -/
def clientsOf (st : V2State) (f : String) : List Nat :=
  clientsOfL st.clients f

/-- The empty initial state. -/
def initV2 : V2State := ⟨[], [], []⟩

/-- Fan-out loop of the second variant: for (const c of set) sendSSE(c, json)
with no try/catch.  The connection-health function hfn tells whether a
write to a given subscriber succeeds; a failing write throws, so the
loop stops and the surrounding handler aborts.  Returns the subscribers
actually written to before the failure, and whether the loop completed. -/
def sendLoop (hfn : Nat → Bool) : List Nat → List Nat × Bool
  | [] => ([], true)
  | c :: rest =>
      if hfn c then
        let p := sendLoop hfn rest
        (c :: p.1, p.2)
      else ([], false)

/-- Result of an ingest call in the second variant: the state after the
call, the deliveries made (subscriber, sample), and the HTTP outcome:
some 401 for a bad token, some 204 for success, none when an unguarded
write threw (the handler aborts before res.status(204), surfacing as a
server error to the producer). -/
structure IngestOut where
  state : V2State
  deliveries : List (Nat × Sample2)
  status : Option Nat
deriving DecidableEq, Repr

/-- Ingest handler of the second server.js variant (lines 205-217):
token gate, store the sample in latest, then the unguarded fan-out. -/
def ingestV2 (secret : String) (hfn : Nat → Bool) (st : V2State) (f : String)
    (b : Body2) (tok : String) (now : Int) : IngestOut :=
  if tok ≠ secret then ⟨st, [], some 401⟩
  else
    let s := mkSample2 b now
    let sent := sendLoop hfn (clientsOf st f)
    ⟨⟨st.clients, setA st.latest f s, st.timers⟩,
      sent.1.map (fun c => (c, s)),
      if sent.2 then some 204 else none⟩

/-- Stream handler registration of the second variant (lines 219-247):
start the keepalive interval, replay the last sample if present, then
add the connection to the flight's subscriber set.  Returns the new
state and the replayed deliveries. -/
def subscribeStep (st : V2State) (f : String) (sub : Nat) :
    V2State × List (Nat × Sample2) :=
  (⟨setA st.clients f (addSet (clientsOf st f) sub), st.latest,
      addSet st.timers sub⟩,
    (lookupA st.latest f).toList.map (fun s => (sub, s)))

/-- Close handler of the second variant (lines 243-246):
clearInterval(ping) then clients.get(flight)?.delete(res). -/
def closeStep (st : V2State) (f : String) (sub : Nat) : V2State :=
  let timers2 := st.timers.filter (fun x => x != sub)
  match lookupA st.clients f with
  | none => ⟨st.clients, st.latest, timers2⟩
  | some set => ⟨setA st.clients f (set.filter (fun x => x != sub)),
      st.latest, timers2⟩

/-- Operations arriving at the second variant's event loop. -/
inductive V2Op where
  | ingest (flight : String) (b : Body2) (tok : String) (now : Int)
  | subscribe (flight : String) (sub : Nat)
  | close (flight : String) (sub : Nat)
deriving DecidableEq, Repr

/-- One event-loop step.  Ingest is run with every subscriber write
succeeding (connection health is only relevant to the error-handling
claims, treated separately on ingestV2). -/
def step (secret : String) (st : V2State) : V2Op → V2State × List (Nat × Sample2)
  | .ingest f b tok now =>
      let r := ingestV2 secret (fun _ => true) st f b tok now
      (r.state, r.deliveries)
  | .subscribe f sub => subscribeStep st f sub
  | .close f sub => (closeStep st f sub, [])

/-- Run a sequence of operations, collecting all deliveries in order. -/
def run (secret : String) (st : V2State) : List V2Op → V2State × List (Nat × Sample2)
  | [] => (st, [])
  | op :: rest =>
      ((run secret (step secret st op).1 rest).1,
        (step secret st op).2 ++ (run secret (step secret st op).1 rest).2)

/-- The data events a given subscriber connection observes, in order. -/
def observed (sub : Nat) (evs : List (Nat × Sample2)) : List Sample2 :=
  (evs.filter (fun e => e.1 == sub)).map (fun e => e.2)

/-- The samples of the successful ingest calls for a flight in a
sequence of operations, in order. -/
def samplesFor (secret : String) (f : String) : List V2Op → List Sample2
  | [] => []
  | .ingest g b tok now :: rest =>
      (if g = f ∧ tok = secret then [mkSample2 b now] else []) ++
        samplesFor secret f rest
  | .subscribe _ _ :: rest => samplesFor secret f rest
  | .close _ _ :: rest => samplesFor secret f rest

/-- First-some choice on options (used to express that later ingests
override earlier ones in the latest Map). -/
def oFirst {α : Type} (a b : Option α) : Option α :=
  match a with
  | some x => some x
  | none => b

/-- The sample of the last successful ingest for a flight in a sequence
of operations, if any. -/
def lastIngestFor (secret : String) (f : String) : List V2Op → Option Sample2
  | [] => none
  | .ingest g b tok now :: rest =>
      oFirst (lastIngestFor secret f rest)
        (if g = f ∧ tok = secret then some (mkSample2 b now) else none)
  | .subscribe _ _ :: rest => lastIngestFor secret f rest
  | .close _ _ :: rest => lastIngestFor secret f rest

/-- Whether an operation subscribes or closes the given subscriber id. -/
def touchesSub (sub : Nat) : V2Op → Bool
  | .subscribe _ s => s == sub
  | .close _ s => s == sub
  | .ingest _ _ _ _ => false

/-- Whether every subscription of the given subscriber id in an
operation is to the given flight. -/
def subscribesOnlyTo (sub : Nat) (bf : String) : V2Op → Bool
  | .subscribe g s => (s != sub) || (g == bf)
  | .close _ _ => true
  | .ingest _ _ _ _ => true

/-! ## First server.js variant: one global channel -/

/-- State of the first server.js variant: the flat clients array, the
keepalive intervals of the open connections, and lastData. -/
structure V1State where
  clients : List Nat
  timers : List Nat
  lastData : Option Sample2
deriving DecidableEq, Repr

/-- Result of an ingest call in the first variant: state, deliveries,
and whether res.json ok true was sent (false is the 401 response). -/
structure IngestOutV1 where
  state : V1State
  deliveries : List (Nat × Sample2)
  ok : Bool
deriving DecidableEq, Repr

/-- Token gate of the first variant (lines 71-74):
if (!process.env.INGEST_TOKEN || token !== process.env.INGEST_TOKEN).
The environment variable is modelled as an Option String; an unset or
empty variable rejects every request. -/
def authV1 (env : Option String) (tok : String) : Bool :=
  match env with
  | none => false
  | some s => if s = "" then false else tok == s

/-- Ingest handler of the first server.js variant (lines 70-84): token
gate, then lastData := spread of body with serverTs := Date.now(), then
fan-out over all clients with a per-client try/catch that ignores
broken pipes, then res.json ok.  Dead subscribers are skipped, the loop
always completes and the producer always gets success. -/
def ingestV1 (env : Option String) (hfn : Nat → Bool) (st : V1State)
    (b : Body2) (tok : String) (now : Int) : IngestOutV1 :=
  if authV1 env tok then
    let s := mkSample1 b now
    ⟨⟨st.clients, st.timers, some s⟩,
      (st.clients.filter hfn).map (fun c => (c, s)), true⟩
  else ⟨st, [], false⟩

/-- Close handler of the first variant (lines 63-66): clearInterval(iv)
then clients := clients.filter(c => c !== res). -/
def closeV1 (st : V1State) (sub : Nat) : V1State :=
  ⟨st.clients.filter (fun x => x != sub),
    st.timers.filter (fun x => x != sub), st.lastData⟩

/-- Ingest of the first server.js variant at the interface where the
caller selects a flight (a query or body parameter per the spec): the
handler body (lines 70-84) never reads that selector, so the parameter
is ignored and the sample goes to the single global channel. -/
def ingestV1For (env : Option String) (hfn : Nat → Bool) (st : V1State)
    (_flight : String) (b : Body2) (tok : String) (now : Int) : IngestOutV1 :=
  ingestV1 env hfn st b tok now

/-- Stream registration of the first server.js variant at the interface
where the caller selects a flight: the handler (lines 46-67) never
reads that selector; the connection's keepalive interval starts,
lastData is replayed if present, and the connection is pushed onto the
single global clients array.  Returns the new state and the replay. -/
def subscribeV1For (st : V1State) (_flight : String) (sub : Nat) :
    V1State × Option Sample2 :=
  (⟨st.clients ++ [sub], addSet st.timers sub, st.lastData⟩, st.lastData)

/-! ## server.mjs: JS value coercions and the liveData Map -/

/-- A JavaScript value as far as the mjs ingest handler inspects it:
numbers (finite, NaN, infinities), strings, booleans, null; an absent
field is modelled as none at the use sites. -/
inductive JSVal where
  | num (q : ℚ)
  | nan
  | inf
  | negInf
  | str (s : String)
  | bool (b : Bool)
  | null
deriving DecidableEq, Repr

/-- typeof v === "number" (NaN and the infinities are numbers). -/
def isNumberType : Option JSVal → Bool
  | some (.num _) => true
  | some .nan => true
  | some .inf => true
  | some .negInf => true
  | _ => false

/-- JavaScript truthiness of a possibly absent value. -/
def truthy : Option JSVal → Bool
  | none => false
  | some (.num q) => q != 0
  | some .nan => false
  | some .inf => true
  | some .negInf => true
  | some (.str s) => s != ""
  | some (.bool b) => b
  | some .null => false

/-- Split a character list at the first dot, if any. -/
def splitDot : List Char → List Char × Option (List Char)
  | [] => ([], none)
  | c :: rest =>
      if c = '.' then ([], some rest)
      else
        let p := splitDot rest
        (c :: p.1, p.2)

/-- Read a nonempty all-digit character list as a natural number. -/
def natOfDigits (cs : List Char) : Option Nat :=
  if cs.isEmpty then none
  else if cs.all Char.isDigit then
    some (cs.foldl (fun n c => 10 * n + (c.toNat - 48)) 0)
  else none

/-- Strip one leading minus sign. -/
def parseSign (cs : List Char) : Bool × List Char :=
  match cs with
  | c :: rest => if c = '-' then (true, rest) else (false, cs)
  | [] => (false, [])

/-- Decimal reading of a string: an optional sign, digits, an optional
fraction.  This is the fragment of the JavaScript string-to-number
conversion exercised by the repository (it does not model whitespace
trimming, exponents or hex forms); any other string reads as none,
which Number turns into NaN. -/
def parseDecimal (s : String) : Option ℚ :=
  let sg := parseSign s.toList
  let q := splitDot sg.2
  let mag : Option ℚ :=
    match q.2 with
    | none => (natOfDigits q.1).map (fun n => (n : ℚ))
    | some frac =>
        match natOfDigits q.1, natOfDigits frac with
        | some ip, some fp =>
            some ((ip : ℚ) + (fp : ℚ) / ((10 : ℚ) ^ frac.length))
        | _, _ => none
  mag.map (fun m => if sg.1 then -m else m)

/-- Number(s) for a string argument: the empty string is 0, otherwise
the decimal reading or NaN. -/
def jsStringToNumber (s : String) : JSVal :=
  if s = "" then .num 0
  else
    match parseDecimal s with
    | some q => .num q
    | none => .nan

/-- The JavaScript Number conversion on a possibly absent value. -/
def toNumber : Option JSVal → JSVal
  | none => .nan
  | some (.num q) => .num q
  | some .nan => .nan
  | some .inf => .inf
  | some .negInf => .negInf
  | some (.str s) => jsStringToNumber s
  | some (.bool b) => .num (if b then 1 else 0)
  | some .null => .num 0

/-- Number(v || 0): the optional-field normalisation of the mjs ingest
handler. -/
def orZero (v : Option JSVal) : JSVal :=
  toNumber (if truthy v then v else some (.num 0))

/-- Number(v || Date.now()): the serverTs normalisation of the mjs
ingest handler. -/
def orNow (v : Option JSVal) (now : Int) : JSVal :=
  toNumber (if truthy v then v else some (.num (now : ℚ)))

/-- Request body of the mjs ingest handler: the eight fields it reads. -/
structure MjsBody where
  lat : Option JSVal
  lon : Option JSVal
  alt_ft : Option JSVal
  hdg_deg : Option JSVal
  gs_kts : Option JSVal
  vs_fpm : Option JSVal
  tas_kts : Option JSVal
  serverTs : Option JSVal
deriving DecidableEq, Repr

/-- The datum stored in liveData by the mjs ingest handler. -/
structure MjsDatum where
  flight : String
  lat : JSVal
  lon : JSVal
  alt_ft : JSVal
  hdg_deg : JSVal
  gs_kts : JSVal
  vs_fpm : JSVal
  tas_kts : JSVal
  serverTs : JSVal
deriving DecidableEq, Repr

/-- Datum construction of the mjs ingest handler (lines 323-333). -/
def mkDatum (flight : String) (d : MjsBody) (now : Int) : MjsDatum :=
  ⟨flight, toNumber d.lat, toNumber d.lon, orZero d.alt_ft, orZero d.hdg_deg,
    orZero d.gs_kts, orZero d.vs_fpm, orZero d.tas_kts, orNow d.serverTs now⟩

/-- The liveData Map of server.mjs. -/
abbrev MjsState := List (String × MjsDatum)

/-- HTTP outcome of an mjs ingest call. -/
inductive MjsResult where
  | forbidden
  | badRequest
  | ok
deriving DecidableEq, Repr

/-- Effective ingest token of server.mjs:
process.env.INGEST_TOKEN || "changeme-ingest-token". -/
def effTokenMjs (env : Option String) : String :=
  match env with
  | none => "changeme-ingest-token"
  | some s => if s = "" then "changeme-ingest-token" else s

/-- Effective ingest token of the second server.js variant:
process.env.INGEST_TOKEN || the compiled-in default. -/
def effTokenV2 (env : Option String) : String :=
  match env with
  | none => "449a6c2b8a4361a5f5c6058ad56c4a1e"
  | some s => if s = "" then "449a6c2b8a4361a5f5c6058ad56c4a1e" else s

/-- Ingest handler of server.mjs (lines 313-336): 403 on a bad token,
400 unless typeof lat and lon are both "number", otherwise store the
normalised datum in liveData and answer ok. -/
def mjsIngest (env : Option String) (st : MjsState) (flight : String)
    (token : String) (d : MjsBody) (now : Int) : MjsState × MjsResult :=
  if token ≠ effTokenMjs env then (st, .forbidden)
  else if isNumberType d.lat = false ∨ isNumberType d.lon = false then
    (st, .badRequest)
  else (setA st flight (mkDatum flight d now), .ok)

/-- Data events written to one mjs stream connection (lines 339-356)
over a window with no concurrent ingest: the replay of the current
datum if present, then one re-send of that same datum per one-second
timer tick (ticks with no datum write only a ping comment, which is
not a data event). -/
def mjsStreamEvents (st : MjsState) (flight : String) (ticks : Nat) :
    List MjsDatum :=
  match lookupA st flight with
  | some d => d :: List.replicate ticks d
  | none => []

/-! ## Helper lemmas: association lists, sets, counts -/

theorem lookupA_setA_self {α : Type} (l : List (String × α)) (k : String) (v : α) :
    lookupA (setA l k v) k = some v := by
  induction l with
  | nil => simp [setA, lookupA]
  | cons p rest ih =>
      by_cases h : p.1 = k
      · simp [setA, h, lookupA]
      · simp [setA, h, lookupA, ih]

theorem lookupA_setA_ne {α : Type} (l : List (String × α)) (k k2 : String) (v : α)
    (h : k ≠ k2) : lookupA (setA l k v) k2 = lookupA l k2 := by
  induction l with
  | nil => simp [setA, lookupA, h]
  | cons p rest ih =>
      obtain ⟨pk, pv⟩ := p
      by_cases hp : pk = k
      · simp [setA, hp, lookupA, h]
      · simp [setA, hp, lookupA, ih]

theorem setA_setA {α : Type} (l : List (String × α)) (k : String) (v w : α) :
    setA (setA l k v) k w = setA l k w := by
  induction l with
  | nil => simp [setA]
  | cons p rest ih =>
      by_cases hp : p.1 = k
      · simp [setA, hp]
      · simp [setA, hp, ih]

theorem mem_addSet (l : List Nat) (x y : Nat) :
    y ∈ addSet l x ↔ y ∈ l ∨ y = x := by
  unfold addSet
  by_cases h : x ∈ l
  · simp only [if_pos h]
    constructor
    · intro hy
      exact Or.inl hy
    · intro hy
      rcases hy with hy | hy
      · exact hy
      · rw [hy]; exact h
  · simp [h]

theorem countN_eq_zero (sub : Nat) (l : List Nat) :
    countN sub l = 0 ↔ sub ∉ l := by
  induction l with
  | nil => simp [countN]
  | cons c rest ih =>
      by_cases h : c = sub
      · simp [countN, h]
      · simp only [countN, if_neg h, Nat.zero_add, ih, List.mem_cons]
        constructor
        · intro hn hor
          rcases hor with hor | hor
          · exact h hor.symm
          · exact hn hor
        · intro hn hmem
          exact hn (Or.inr hmem)

theorem countN_append (sub : Nat) (a b : List Nat) :
    countN sub (a ++ b) = countN sub a + countN sub b := by
  induction a with
  | nil => simp [countN]
  | cons c rest ih => simp [countN, ih]; omega

theorem countN_addSet_ne (l : List Nat) (s sub : Nat) (h : s ≠ sub) :
    countN sub (addSet l s) = countN sub l := by
  unfold addSet
  by_cases hm : s ∈ l
  · simp [hm]
  · simp [hm, countN_append, countN, h]

theorem countN_addSet_self (l : List Nat) (sub : Nat) (h : sub ∉ l) :
    countN sub (addSet l sub) = 1 := by
  unfold addSet
  simp [h, countN_append, countN]
  exact (countN_eq_zero sub l).mpr h

theorem countN_filter_ne (l : List Nat) (s sub : Nat) (h : s ≠ sub) :
    countN sub (l.filter (fun x => x != s)) = countN sub l := by
  induction l with
  | nil => simp [countN]
  | cons c rest ih =>
      by_cases hc : c = s
      · have hcs : c ≠ sub := by rw [hc]; exact h
        simp [List.filter, hc, countN, hcs, ih, h]
      · have hcs : (c != s) = true := by simp [hc]
        simp [List.filter, hcs, countN, ih]

theorem not_mem_filter_of_not_mem (l : List Nat) (p : Nat → Bool) (sub : Nat)
    (h : sub ∉ l) : sub ∉ l.filter p := by
  intro hmem
  exact h (List.mem_of_mem_filter hmem)

theorem filter_ne_idem (l : List Nat) (s : Nat) :
    (l.filter (fun x => x != s)).filter (fun x => x != s)
      = l.filter (fun x => x != s) := by
  induction l with
  | nil => simp
  | cons c rest ih =>
      by_cases hc : c = s
      · simp [List.filter, hc, ih]
      · have : (c != s) = true := by simp [hc]
        simp [List.filter, this, ih]

/-! ## Helper lemmas: observed, sendLoop, oFirst -/

theorem observed_nil (sub : Nat) : observed sub [] = [] := rfl

theorem observed_append (sub : Nat) (a b : List (Nat × Sample2)) :
    observed sub (a ++ b) = observed sub a ++ observed sub b := by
  simp [observed, List.filter_append]

theorem observed_cons (sub : Nat) (e : Nat × Sample2) (l : List (Nat × Sample2)) :
    observed sub (e :: l)
      = if e.1 = sub then e.2 :: observed sub l else observed sub l := by
  by_cases h : e.1 = sub
  · have hb : (e.1 == sub) = true := by simp [h]
    simp [observed, List.filter_cons, hb, h]
  · have hb : (e.1 == sub) = false := by simp [h]
    simp [observed, List.filter_cons, hb, h]

theorem observed_map_const (sub : Nat) (l : List Nat) (s : Sample2) :
    observed sub (l.map (fun c => (c, s))) = List.replicate (countN sub l) s := by
  induction l with
  | nil => rfl
  | cons c rest ih =>
      rw [List.map_cons, observed_cons]
      by_cases h : c = sub
      · have hcount : countN sub (c :: rest) = countN sub rest + 1 := by
          simp [countN, h]; omega
        rw [hcount, List.replicate_succ]
        simp [h, ih]
      · have hcount : countN sub (c :: rest) = countN sub rest := by
          simp [countN, h]
        rw [hcount]
        simp [h, ih]

theorem observed_map_to (sub : Nat) (l : List Sample2) :
    observed sub (l.map (fun s => (sub, s))) = l := by
  induction l with
  | nil => rfl
  | cons s rest ih =>
      rw [List.map_cons, observed_cons]
      simp [ih]

theorem observed_map_other (sub c : Nat) (l : List Sample2) (h : c ≠ sub) :
    observed sub (l.map (fun s => (c, s))) = [] := by
  induction l with
  | nil => rfl
  | cons s rest ih =>
      rw [List.map_cons, observed_cons]
      simp [h, ih]

theorem sendLoop_true (l : List Nat) :
    sendLoop (fun _ => true) l = (l, true) := by
  induction l with
  | nil => rfl
  | cons c rest ih => simp [sendLoop, ih]

theorem sendLoop_mem (hfn : Nat → Bool) (l : List Nat) :
    ∀ c ∈ (sendLoop hfn l).1, c ∈ l := by
  induction l with
  | nil => simp [sendLoop]
  | cons c rest ih =>
      by_cases h : hfn c
      · simp only [sendLoop, if_pos h]
        intro x hx
        rcases List.mem_cons.mp hx with hx | hx
        · rw [hx]; exact List.mem_cons_self c rest
        · exact List.mem_cons_of_mem c (ih x hx)
      · simp [sendLoop, h]

theorem oFirst_none_right {α : Type} (a : Option α) : oFirst a none = a := by
  cases a <;> rfl

theorem oFirst_assoc {α : Type} (a b c : Option α) :
    oFirst (oFirst a b) c = oFirst a (oFirst b c) := by
  cases a <;> cases b <;> rfl

/-! ## Step unfolding lemmas -/

theorem step_ingest (secret : String) (st : V2State) (f : String) (b : Body2)
    (tok : String) (now : Int) :
    step secret st (.ingest f b tok now)
      = if tok = secret then
          (⟨st.clients, setA st.latest f (mkSample2 b now), st.timers⟩,
            (clientsOf st f).map (fun c => (c, mkSample2 b now)))
        else (st, []) := by
  by_cases h : tok = secret
  · simp [step, ingestV2, h, sendLoop_true]
  · simp [step, ingestV2, h]

theorem step_subscribe (secret : String) (st : V2State) (f : String) (sub : Nat) :
    step secret st (.subscribe f sub)
      = (⟨setA st.clients f (addSet (clientsOf st f) sub), st.latest,
            addSet st.timers sub⟩,
          (lookupA st.latest f).toList.map (fun s => (sub, s))) := rfl

theorem step_close (secret : String) (st : V2State) (f : String) (sub : Nat) :
    step secret st (.close f sub) = (closeStep st f sub, []) := rfl

theorem run_nil (secret : String) (st : V2State) : run secret st [] = (st, []) := rfl

theorem run_cons (secret : String) (st : V2State) (op : V2Op) (rest : List V2Op) :
    run secret st (op :: rest)
      = ((run secret (step secret st op).1 rest).1,
          (step secret st op).2 ++ (run secret (step secret st op).1 rest).2) := rfl

theorem run_append (secret : String) (a b : List V2Op) :
    ∀ st : V2State,
      run secret st (a ++ b)
        = ((run secret (run secret st a).1 b).1,
            (run secret st a).2 ++ (run secret (run secret st a).1 b).2) := by
  induction a with
  | nil => intro st; simp [run]
  | cons op rest ih =>
      intro st
      simp only [List.cons_append, run_cons, ih]
      simp [List.append_assoc]

/-! ## Channel-state invariants along a trace -/

theorem clientsOf_ingest (secret : String) (st : V2State) (f g : String)
    (b : Body2) (tok : String) (now : Int) :
    clientsOf (step secret st (.ingest f b tok now)).1 g = clientsOf st g := by
  rw [step_ingest]
  by_cases h : tok = secret <;> simp [h, clientsOf, clientsOfL]

theorem clientsOf_subscribe_self (secret : String) (st : V2State) (f : String)
    (sub : Nat) :
    clientsOf (step secret st (.subscribe f sub)).1 f
      = addSet (clientsOf st f) sub := by
  rw [step_subscribe]
  simp [clientsOf, clientsOfL, lookupA_setA_self]

theorem clientsOf_subscribe_ne (secret : String) (st : V2State) (f g : String)
    (sub : Nat) (h : g ≠ f) :
    clientsOf (step secret st (.subscribe f sub)).1 g = clientsOf st g := by
  rw [step_subscribe]
  simp [clientsOf, clientsOfL]
  rw [lookupA_setA_ne]
  intro hk
  exact h hk.symm

theorem clientsOf_close_cases (st : V2State) (f g : String) (sub : Nat) :
    clientsOf (closeStep st f sub) g = clientsOf st g ∨
      (g = f ∧ clientsOf (closeStep st f sub) g
        = (clientsOf st f).filter (fun x => x != sub)) := by
  unfold closeStep
  cases hl : lookupA st.clients f with
  | none => exact Or.inl rfl
  | some set =>
      by_cases hg : g = f
      · refine Or.inr ⟨hg, ?_⟩
        rw [hg]
        simp [clientsOf, clientsOfL, lookupA_setA_self, hl]
      · refine Or.inl ?_
        simp [clientsOf, clientsOfL]
        rw [lookupA_setA_ne]
        intro hk
        exact hg hk.symm

/-! ## The latest Map tracks the last successful ingest -/

theorem run_latest (secret : String) (f : String) (ops : List V2Op) :
    ∀ st : V2State,
      lookupA (run secret st ops).1.latest f
        = oFirst (lastIngestFor secret f ops) (lookupA st.latest f) := by
  induction ops with
  | nil => intro st; simp [run, lastIngestFor, oFirst]
  | cons op rest ih =>
      intro st
      rw [run_cons]
      cases op with
      | ingest g b tok now =>
          by_cases htok : tok = secret
          · rw [step_ingest, if_pos htok, ih]
            by_cases hg : g = f
            · subst hg
              rw [lookupA_setA_self]
              have hlast : lastIngestFor secret g (V2Op.ingest g b tok now :: rest)
                  = oFirst (lastIngestFor secret g rest) (some (mkSample2 b now)) := by
                rw [lastIngestFor, if_pos ⟨rfl, htok⟩]
              rw [hlast, oFirst_assoc]
              simp [oFirst]
            · have hlook : lookupA (setA st.latest g (mkSample2 b now)) f
                  = lookupA st.latest f := by
                apply lookupA_setA_ne
                intro hk
                exact hg hk
              rw [hlook]
              have hcond : ¬ (g = f ∧ tok = secret) := by
                intro hc
                exact hg hc.1
              rw [lastIngestFor, if_neg hcond, oFirst_none_right]
          · rw [step_ingest, if_neg htok, ih]
            have hcond : ¬ (g = f ∧ tok = secret) := by
              intro hc
              exact htok hc.2
            rw [lastIngestFor, if_neg hcond, oFirst_none_right]
      | subscribe g sub =>
          rw [step_subscribe, ih]
          simp [lastIngestFor]
      | close g sub =>
          rw [step_close, ih]
          have : (closeStep st g sub).latest = st.latest := by
            unfold closeStep
            cases lookupA st.clients g <;> rfl
          simp [lastIngestFor, this]

theorem samplesFor_nil_last (secret : String) (f : String) (ops : List V2Op)
    (h : samplesFor secret f ops = []) : lastIngestFor secret f ops = none := by
  induction ops with
  | nil => rfl
  | cons op rest ih =>
      cases op with
      | ingest g b tok now =>
          by_cases hc : g = f ∧ tok = secret
          · rw [samplesFor, if_pos hc] at h
            exact absurd h (by simp)
          · rw [samplesFor, if_neg hc] at h
            rw [lastIngestFor, if_neg hc, ih h]
            rfl
      | subscribe g sub =>
          rw [samplesFor] at h
          rw [lastIngestFor, ih h]
      | close g sub =>
          rw [samplesFor] at h
          rw [lastIngestFor, ih h]

theorem lastIngestFor_append (secret : String) (f : String) (a b : List V2Op) :
    lastIngestFor secret f (a ++ b)
      = oFirst (lastIngestFor secret f b) (lastIngestFor secret f a) := by
  induction a with
  | nil => simp [lastIngestFor, oFirst_none_right]
  | cons op rest ih =>
      cases op with
      | ingest g bd tok now =>
          rw [List.cons_append, lastIngestFor, lastIngestFor, ih, oFirst_assoc]
      | subscribe g sub => rw [List.cons_append, lastIngestFor, lastIngestFor, ih]
      | close g sub => rw [List.cons_append, lastIngestFor, lastIngestFor, ih]

/-! ## A connection that never appears receives nothing -/

theorem run_fresh (secret : String) (sub : Nat) (ops : List V2Op) :
    ∀ st : V2State,
      (∀ op ∈ ops, touchesSub sub op = false) →
      (∀ g, sub ∉ clientsOf st g) →
      observed sub (run secret st ops).2 = [] ∧
        (∀ g, sub ∉ clientsOf (run secret st ops).1 g) := by
  induction ops with
  | nil => intro st _ hmem; exact ⟨rfl, hmem⟩
  | cons op rest ih =>
      intro st hops hmem
      have hop := hops op (List.mem_cons_self op rest)
      have hrest : ∀ op2 ∈ rest, touchesSub sub op2 = false := by
        intro op2 h2
        exact hops op2 (List.mem_cons_of_mem op h2)
      rw [run_cons, observed_append]
      cases op with
      | ingest f b tok now =>
          have hmem2 : ∀ g, sub ∉ clientsOf (step secret st (.ingest f b tok now)).1 g := by
            intro g
            rw [clientsOf_ingest]
            exact hmem g
          have hobs : observed sub (step secret st (.ingest f b tok now)).2 = [] := by
            rw [step_ingest]
            by_cases htok : tok = secret
            · simp only [if_pos htok]
              rw [observed_map_const, (countN_eq_zero sub (clientsOf st f)).mpr (hmem f)]
              rfl
            · simp [htok, observed_nil]
          have := ih (step secret st (.ingest f b tok now)).1 hrest hmem2
          exact ⟨by rw [hobs, this.1]; rfl, this.2⟩
      | subscribe g s =>
          have hs : s ≠ sub := by
            intro hcontra
            rw [touchesSub, hcontra] at hop
            simp at hop
          have hmem2 : ∀ g2, sub ∉ clientsOf (step secret st (.subscribe g s)).1 g2 := by
            intro g2
            by_cases hg2 : g2 = g
            · rw [hg2, clientsOf_subscribe_self]
              intro hin
              rcases (mem_addSet (clientsOf st g) s sub).mp hin with hin | hin
              · exact hmem g hin
              · exact hs hin.symm
            · rw [clientsOf_subscribe_ne secret st g g2 s hg2]
              exact hmem g2
          have hobs : observed sub (step secret st (.subscribe g s)).2 = [] := by
            rw [step_subscribe]
            exact observed_map_other sub s (lookupA st.latest g).toList hs
          have := ih (step secret st (.subscribe g s)).1 hrest hmem2
          exact ⟨by rw [hobs, this.1]; rfl, this.2⟩
      | close g s =>
          have hmem2 : ∀ g2, sub ∉ clientsOf (step secret st (.close g s)).1 g2 := by
            intro g2
            rw [step_close]
            rcases clientsOf_close_cases st g g2 s with hc | hc
            · rw [hc]; exact hmem g2
            · rw [hc.2]
              exact not_mem_filter_of_not_mem (clientsOf st g) _ sub (hmem g)
          have := ih (step secret st (.close g s)).1 hrest hmem2
          exact ⟨by rw [step_close] at *; simp [observed_nil]; exact this.1, this.2⟩

/-! ## A registered connection observes exactly the successful ingests -/

theorem run_observed_inv (secret : String) (f : String) (sub : Nat)
    (ops : List V2Op) :
    ∀ st : V2State,
      (∀ op ∈ ops, touchesSub sub op = false) →
      countN sub (clientsOf st f) = 1 →
      (∀ g, g ≠ f → sub ∉ clientsOf st g) →
      observed sub (run secret st ops).2 = samplesFor secret f ops := by
  induction ops with
  | nil => intro st _ _ _; rfl
  | cons op rest ih =>
      intro st hops hcount hother
      have hop := hops op (List.mem_cons_self op rest)
      have hrest : ∀ op2 ∈ rest, touchesSub sub op2 = false := by
        intro op2 h2
        exact hops op2 (List.mem_cons_of_mem op h2)
      rw [run_cons, observed_append]
      cases op with
      | ingest g b tok now =>
          have hinv1 : countN sub (clientsOf (step secret st (.ingest g b tok now)).1 f) = 1 := by
            rw [clientsOf_ingest]; exact hcount
          have hinv2 : ∀ g2, g2 ≠ f →
              sub ∉ clientsOf (step secret st (.ingest g b tok now)).1 g2 := by
            intro g2 hg2
            rw [clientsOf_ingest]
            exact hother g2 hg2
          have htail := ih (step secret st (.ingest g b tok now)).1 hrest hinv1 hinv2
          rw [htail]
          by_cases htok : tok = secret
          · rw [step_ingest, if_pos htok]
            by_cases hg : g = f
            · subst hg
              have : observed sub ((clientsOf st g).map (fun c => (c, mkSample2 b now)))
                  = [mkSample2 b now] := by
                rw [observed_map_const, hcount]
                rfl
              rw [samplesFor, if_pos ⟨rfl, htok⟩]
              simp [this]
            · have hnot : sub ∉ clientsOf st g := hother g (by intro hc; exact hg hc)
              have : observed sub ((clientsOf st g).map (fun c => (c, mkSample2 b now)))
                  = [] := by
                rw [observed_map_const, (countN_eq_zero sub (clientsOf st g)).mpr hnot]
                rfl
              rw [samplesFor, if_neg (by intro hc; exact hg hc.1)]
              simp [this]
          · rw [step_ingest, if_neg htok]
            rw [samplesFor, if_neg (by intro hc; exact htok hc.2)]
            simp [observed_nil]
      | subscribe g s =>
          have hs : s ≠ sub := by
            intro hcontra
            rw [touchesSub, hcontra] at hop
            simp at hop
          have hinv1 : countN sub (clientsOf (step secret st (.subscribe g s)).1 f) = 1 := by
            by_cases hg : g = f
            · rw [hg, clientsOf_subscribe_self, countN_addSet_ne _ _ _ hs]
              exact hcount
            · rw [clientsOf_subscribe_ne secret st g f s (by intro hc; exact hg hc.symm)]
              exact hcount
          have hinv2 : ∀ g2, g2 ≠ f →
              sub ∉ clientsOf (step secret st (.subscribe g s)).1 g2 := by
            intro g2 hg2
            by_cases hgg : g2 = g
            · rw [hgg, clientsOf_subscribe_self]
              intro hin
              rcases (mem_addSet (clientsOf st g) s sub).mp hin with hin | hin
              · exact hother g (by rw [← hgg]; exact hg2) hin
              · exact hs hin.symm
            · rw [clientsOf_subscribe_ne secret st g g2 s hgg]
              exact hother g2 hg2
          have htail := ih (step secret st (.subscribe g s)).1 hrest hinv1 hinv2
          rw [htail, samplesFor]
          have hobs : observed sub (step secret st (.subscribe g s)).2 = [] := by
            rw [step_subscribe]
            exact observed_map_other sub s (lookupA st.latest g).toList hs
          rw [hobs]
          rfl
      | close g s =>
          have hs : s ≠ sub := by
            intro hcontra
            rw [touchesSub, hcontra] at hop
            simp at hop
          have hinv1 : countN sub (clientsOf (step secret st (.close g s)).1 f) = 1 := by
            rw [step_close]
            rcases clientsOf_close_cases st g f s with hc | hc
            · rw [hc]; exact hcount
            · rw [hc.2, countN_filter_ne _ _ _ hs, ← hc.1]
              exact hcount
          have hinv2 : ∀ g2, g2 ≠ f →
              sub ∉ clientsOf (step secret st (.close g s)).1 g2 := by
            intro g2 hg2
            rw [step_close]
            rcases clientsOf_close_cases st g g2 s with hc | hc
            · rw [hc]; exact hother g2 hg2
            · rw [hc.2]
              exact not_mem_filter_of_not_mem _ _ sub (hother g (by rw [← hc.1]; exact hg2))
          have htail := ih (step secret st (.close g s)).1 hrest hinv1 hinv2
          rw [htail, samplesFor]
          rw [step_close]
          simp [observed_nil]

/-! ## Membership in a channel comes only from a subscribe for it -/

theorem mem_clients_run (secret : String) (sub : Nat) (ops : List V2Op) :
    ∀ (st : V2State) (g : String),
      sub ∈ clientsOf (run secret st ops).1 g →
      sub ∈ clientsOf st g ∨ V2Op.subscribe g sub ∈ ops := by
  induction ops with
  | nil => intro st g h; exact Or.inl h
  | cons op rest ih =>
      intro st g h
      rw [run_cons] at h
      have := ih (step secret st op).1 g h
      rcases this with hmem | hmem
      · cases op with
        | ingest f b tok now =>
            rw [clientsOf_ingest] at hmem
            exact Or.inl hmem
        | subscribe f s =>
            by_cases hg : g = f
            · rw [hg, clientsOf_subscribe_self] at hmem
              rcases (mem_addSet (clientsOf st f) s sub).mp hmem with hmem | hmem
              · rw [hg]; exact Or.inl hmem
              · refine Or.inr ?_
                rw [hg, hmem]
                exact List.mem_cons_self _ rest
            · rw [clientsOf_subscribe_ne secret st f g s hg] at hmem
              exact Or.inl hmem
        | close f s =>
            rw [step_close] at hmem
            rcases clientsOf_close_cases st f g s with hc | hc
            · rw [hc] at hmem; exact Or.inl hmem
            · rw [hc.2] at hmem
              rw [hc.1]
              exact Or.inl (List.mem_of_mem_filter hmem)
      · exact Or.inr (List.mem_cons_of_mem op hmem)

/-! ## The full subscriber story: replay then live updates -/

theorem observed_run_split (secret : String) (f : String) (sub : Nat)
    (t t2 : List V2Op)
    (h1 : ∀ op ∈ t, touchesSub sub op = false)
    (h2 : ∀ op ∈ t2, touchesSub sub op = false) :
    observed sub (run secret initV2 (t ++ V2Op.subscribe f sub :: t2)).2
      = (lastIngestFor secret f t).toList ++ samplesFor secret f t2 := by
  have hinit : ∀ g, sub ∉ clientsOf initV2 g := by
    intro g
    simp [initV2, clientsOf, clientsOfL, lookupA]
  have hfresh := run_fresh secret sub t initV2 h1 hinit
  rw [run_append, observed_append, hfresh.1]
  set st1 := (run secret initV2 t).1 with hst1
  rw [run_cons, observed_append]
  have hreplay : observed sub (step secret st1 (.subscribe f sub)).2
      = (lookupA st1.latest f).toList := by
    rw [step_subscribe]
    exact observed_map_to sub (lookupA st1.latest f).toList
  have hlatest : lookupA st1.latest f = lastIngestFor secret f t := by
    rw [hst1, run_latest]
    simp [initV2, lookupA, oFirst_none_right]
  have hinv1 : countN sub (clientsOf (step secret st1 (.subscribe f sub)).1 f) = 1 := by
    rw [clientsOf_subscribe_self]
    exact countN_addSet_self (clientsOf st1 f) sub (hfresh.2 f)
  have hinv2 : ∀ g, g ≠ f →
      sub ∉ clientsOf (step secret st1 (.subscribe f sub)).1 g := by
    intro g hg
    rw [clientsOf_subscribe_ne secret st1 f g sub hg]
    exact hfresh.2 g
  have htail := run_observed_inv secret f sub t2
    (step secret st1 (.subscribe f sub)).1 h2 hinv1 hinv2
  rw [hreplay, hlatest, htail]
  simp

/-! ## Remaining helper lemmas -/

theorem ingest_deliveries_mem (secret : String) (hfn : Nat → Bool) (st : V2State)
    (f : String) (b : Body2) (tok : String) (now : Int) :
    ∀ d ∈ (ingestV2 secret hfn st f b tok now).deliveries,
      d.1 ∈ clientsOf st f := by
  intro d hd
  by_cases htok : tok = secret
  · unfold ingestV2 at hd
    rw [if_neg (by simp [htok])] at hd
    simp only at hd
    rcases List.mem_map.mp hd with ⟨c, hc, hd2⟩
    rw [← hd2]
    exact sendLoop_mem hfn (clientsOf st f) c hc
  · unfold ingestV2 at hd
    rw [if_pos (by simp [htok])] at hd
    simp at hd

theorem orZero_none : orZero none = JSVal.num 0 := rfl

theorem orZero_num (q : ℚ) : orZero (some (JSVal.num q)) = JSVal.num q := by
  unfold orZero truthy
  by_cases h : q = 0
  · simp [h, toNumber]
  · have hb : (q != 0) = true := by simp [h]
    simp [hb, toNumber]

theorem orNow_none (now : Int) : orNow none now = JSVal.num (now : ℚ) := rfl

theorem orNow_truthy (v : JSVal) (now : Int) (h : truthy (some v) = true) :
    orNow (some v) now = toNumber (some v) := by
  unfold orNow
  rw [if_pos h]

theorem orNow_falsy (v : JSVal) (now : Int) (h : truthy (some v) = false) :
    orNow (some v) now = JSVal.num (now : ℚ) := by
  unfold orNow
  rw [if_neg (by simp [h])]
  rfl

/-! ## Claims -/

/-- C1 (amended): in the per-flight server.js variant, the fan-out of a
successful ingest for flight A writes only to the subscriber set of
flight A's own channel, so a connection whose subscriptions are all to
a distinct flight B never receives the sample; in the first server.js
variant (and part_000) the flight selector is ignored on both
endpoints — there is one global channel — so a successful ingest
posted for flight A is delivered to every healthy subscriber,
including one that connected for flight B (see the counterexample). -/
theorem c1_flight_isolation (secret : String) (t : List V2Op) (A B : String)
    (sub : Nat) (env : Option String) (hfn1 : Nat → Bool) (st1 : V1State)
    (b1 : Body2) (tok1 : String) (now1 : Int)
    (hAB : A ≠ B)
    (hOnly : ∀ op ∈ t, subscribesOnlyTo sub B op = true)
    (hauth : authV1 env tok1 = true)
    (halive : hfn1 sub = true) :
    (∀ (hfn : Nat → Bool) (b : Body2) (tok : String) (now : Int),
      ∀ d ∈ (ingestV2 secret hfn (run secret initV2 t).1 A b tok now).deliveries,
        d.1 ∈ clientsOf (run secret initV2 t).1 A ∧ d.1 ≠ sub) ∧
    (sub, mkSample1 b1 now1) ∈
      (ingestV1For env hfn1 (subscribeV1For st1 B sub).1 A b1 tok1 now1).deliveries := by
  constructor
  · intro hfn b tok now d hd
    have hmemA := ingest_deliveries_mem secret hfn (run secret initV2 t).1 A b tok now d hd
    refine ⟨hmemA, ?_⟩
    intro hdsub
    rw [hdsub] at hmemA
    rcases mem_clients_run secret sub t initV2 A hmemA with h | h
    · simp [initV2, clientsOf, clientsOfL, lookupA] at h
    · have hB := hOnly _ h
      rw [subscribesOnlyTo] at hB
      simp at hB
      exact hAB hB
  · unfold ingestV1For ingestV1
    rw [if_pos hauth]
    simp only
    apply List.mem_map.mpr
    refine ⟨sub, ?_, rfl⟩
    apply List.mem_filter.mpr
    refine ⟨?_, halive⟩
    unfold subscribeV1For
    simp

/-- Witness for C1 at a concrete trace: in the per-flight variant a
subscriber of flight B gets nothing from an ingest for flight A, while
in the first variant the same connection pattern does receive it. -/
theorem c1_flight_isolation_witness :
    (("A" : String) ≠ "B") ∧
    (∀ op ∈ [V2Op.subscribe "B" 1], subscribesOnlyTo 1 "B" op = true) ∧
    (authV1 (some "k") "k" = true) ∧
    ((fun _ : Nat => true) 1 = true) ∧
    ((∀ (hfn : Nat → Bool) (b : Body2) (tok : String) (now : Int),
        ∀ d ∈ (ingestV2 "s" hfn (run "s" initV2 [V2Op.subscribe "B" 1]).1
            "A" b tok now).deliveries,
          d.1 ∈ clientsOf (run "s" initV2 [V2Op.subscribe "B" 1]).1 "A" ∧ d.1 ≠ 1) ∧
      (1, mkSample1 ⟨"x", none⟩ 0) ∈
        (ingestV1For (some "k") (fun _ => true) (subscribeV1For ⟨[], [], none⟩ "B" 1).1
          "A" ⟨"x", none⟩ "k" 0).deliveries) :=
  ⟨by decide, by decide, by decide, rfl,
    c1_flight_isolation "s" [V2Op.subscribe "B" 1] "A" "B" 1 (some "k")
      (fun _ => true) ⟨[], [], none⟩ ⟨"x", none⟩ "k" 0
      (by decide) (by decide) (by decide) rfl⟩

/-- C1 counterexample: in the first server.js variant a subscriber who
connected for flight B is pushed onto the single global clients array
and receives the sample of a successful ingest posted for flight A —
the original claim's isolation fails there. -/
theorem c1_counterexample :
    (ingestV1For (some "k") (fun _ => true)
        (subscribeV1For ⟨[], [], none⟩ "B" 1).1 "A" ⟨"x", none⟩ "k" 0).deliveries
      = [(1, mkSample1 ⟨"x", none⟩ 0)] ∧
    ((1, mkSample1 ⟨"x", none⟩ 0) : Nat × Sample2) ∈
      (ingestV1For (some "k") (fun _ => true)
        (subscribeV1For ⟨[], [], none⟩ "B" 1).1 "A" ⟨"x", none⟩ "k" 0).deliveries ∧
    (("A" : String) ≠ "B") := by
  decide

/-- C4: a subscriber that connects after sample s1 was ingested for its
flight and before the next sample s2 observes s1 as its first event
(the replay) and then s2; a subscriber that connects when no sample has
ever been successfully ingested for that flight receives no replay
event and then observes exactly the later live updates. -/
theorem c4_replay_then_live (secret f : String) (sub : Nat) (t : List V2Op)
    (b1 b2 : Body2) (n1 n2 : Int)
    (ht : ∀ op ∈ t, touchesSub sub op = false) :
    observed sub (run secret initV2
        (t ++ [V2Op.ingest f b1 secret n1, V2Op.subscribe f sub,
          V2Op.ingest f b2 secret n2])).2
      = [mkSample2 b1 n1, mkSample2 b2 n2] ∧
    (∀ t2, (∀ op ∈ t2, touchesSub sub op = false) →
      samplesFor secret f t = [] →
      observed sub (run secret initV2 (t ++ V2Op.subscribe f sub :: t2)).2
        = samplesFor secret f t2) := by
  constructor
  · have hlist : t ++ [V2Op.ingest f b1 secret n1, V2Op.subscribe f sub,
        V2Op.ingest f b2 secret n2]
        = (t ++ [V2Op.ingest f b1 secret n1]) ++ V2Op.subscribe f sub ::
            [V2Op.ingest f b2 secret n2] := by
      simp
    rw [hlist, observed_run_split]
    · rw [lastIngestFor_append]
      have hx : lastIngestFor secret f [V2Op.ingest f b1 secret n1]
          = some (mkSample2 b1 n1) := by
        rw [lastIngestFor, lastIngestFor, if_pos ⟨rfl, rfl⟩]
        rfl
      rw [hx]
      have hy : samplesFor secret f [V2Op.ingest f b2 secret n2]
          = [mkSample2 b2 n2] := by
        rw [samplesFor, if_pos ⟨rfl, rfl⟩]
        rfl
      rw [hy]
      rfl
    · intro op hop
      rcases List.mem_append.mp hop with h | h
      · exact ht op h
      · simp at h
        rw [h]
        rfl
    · intro op hop
      simp at hop
      rw [hop]
      rfl
  · intro t2 ht2 hnone
    rw [observed_run_split secret f sub t t2 ht ht2]
    rw [samplesFor_nil_last secret f t hnone]
    rfl

/-- Witness for C4 at a concrete trace. -/
theorem c4_replay_then_live_witness :
    (∀ op ∈ ([] : List V2Op), touchesSub 5 op = false) ∧
    (observed 5 (run "s" initV2
        (([] : List V2Op) ++ [V2Op.ingest "F" ⟨"a", none⟩ "s" 1, V2Op.subscribe "F" 5,
          V2Op.ingest "F" ⟨"b", none⟩ "s" 3])).2
      = [mkSample2 ⟨"a", none⟩ 1, mkSample2 ⟨"b", none⟩ 3] ∧
    (∀ t2, (∀ op ∈ t2, touchesSub 5 op = false) →
      samplesFor "s" "F" ([] : List V2Op) = [] →
      observed 5 (run "s" initV2 (([] : List V2Op) ++ V2Op.subscribe "F" 5 :: t2)).2
        = samplesFor "s" "F" t2)) :=
  ⟨by decide, c4_replay_then_live "s" "F" 5 [] ⟨"a", none⟩ ⟨"b", none⟩ 1 3 (by decide)⟩

/-- C8 (amended to the per-flight server.js variant): the sequence of
samples observed by a single subscriber is exactly the sequence of
successful ingest calls for its flight that occur after its subscribe,
prefixed by the one last sample present at subscribe time (if any) —
no duplicates, no reordering.  In server.mjs this fails: the stream
handler re-sends the latest datum every second (see the
counterexample). -/
theorem c8_exact_sequence (secret f : String) (sub : Nat) (t t2 : List V2Op)
    (h1 : ∀ op ∈ t, touchesSub sub op = false)
    (h2 : ∀ op ∈ t2, touchesSub sub op = false) :
    observed sub (run secret initV2 (t ++ V2Op.subscribe f sub :: t2)).2
      = (lastIngestFor secret f t).toList ++ samplesFor secret f t2 :=
  observed_run_split secret f sub t t2 h1 h2

/-- Witness for C8 at a concrete trace mixing two flights. -/
theorem c8_exact_sequence_witness :
    (∀ op ∈ [V2Op.ingest "F" ⟨"a", none⟩ "s" 1, V2Op.ingest "G" ⟨"c", none⟩ "s" 2],
        touchesSub 5 op = false) ∧
    (∀ op ∈ [V2Op.ingest "F" ⟨"b", some 7⟩ "s" 3, V2Op.subscribe "G" 6,
        V2Op.ingest "G" ⟨"d", none⟩ "s" 4],
        touchesSub 5 op = false) ∧
    observed 5 (run "s" initV2
        ([V2Op.ingest "F" ⟨"a", none⟩ "s" 1, V2Op.ingest "G" ⟨"c", none⟩ "s" 2]
          ++ V2Op.subscribe "F" 5 ::
            [V2Op.ingest "F" ⟨"b", some 7⟩ "s" 3, V2Op.subscribe "G" 6,
              V2Op.ingest "G" ⟨"d", none⟩ "s" 4])).2
      = [⟨"a", 1⟩, ⟨"b", 7⟩] :=
  ⟨by decide, by decide,
    (c8_exact_sequence "s" "F" 5
        [V2Op.ingest "F" ⟨"a", none⟩ "s" 1, V2Op.ingest "G" ⟨"c", none⟩ "s" 2]
        [V2Op.ingest "F" ⟨"b", some 7⟩ "s" 3, V2Op.subscribe "G" 6,
          V2Op.ingest "G" ⟨"d", none⟩ "s" 4]
        (by decide) (by decide)).trans (by decide)⟩

/-- C8 counterexample: in server.mjs the stream handler re-sends the
current datum on every one-second tick, so a subscriber observes the
same sample repeatedly although only one successful update occurred;
the observed sequence is not the update sequence prefixed by one
replay. -/
theorem c8_counterexample :
    (mjsIngest none [] "F" "changeme-ingest-token"
        ⟨some (JSVal.num 1), some (JSVal.num 2), none, none, none, none, none, none⟩
        5).2 = MjsResult.ok ∧
    mjsStreamEvents (mjsIngest none [] "F" "changeme-ingest-token"
        ⟨some (JSVal.num 1), some (JSVal.num 2), none, none, none, none, none, none⟩
        5).1 "F" 2
      = List.replicate 3 (mkDatum "F"
          ⟨some (JSVal.num 1), some (JSVal.num 2), none, none, none, none, none, none⟩ 5) ∧
    List.replicate 3 (mkDatum "F"
        ⟨some (JSVal.num 1), some (JSVal.num 2), none, none, none, none, none, none⟩ 5)
      ≠ [mkDatum "F"
          ⟨some (JSVal.num 1), some (JSVal.num 2), none, none, none, none, none, none⟩ 5] := by
  decide

/-- C9: removing a subscriber is idempotent in both server.js variants:
closing the same connection twice (duplicate close notification)
leaves the same state as closing it once and does not error (the close
handlers are total); the first close removes the subscriber's
keepalive timer from the set of live timers and a second close finds
nothing left to cancel. -/
theorem c9_unsubscribe_idempotent (st : V2State) (f : String) (sub : Nat)
    (st1 : V1State) :
    closeStep (closeStep st f sub) f sub = closeStep st f sub ∧
    (closeStep st f sub).timers = st.timers.filter (fun x => x != sub) ∧
    sub ∉ (closeStep st f sub).timers ∧
    closeV1 (closeV1 st1 sub) sub = closeV1 st1 sub ∧
    sub ∉ (closeV1 st1 sub).timers := by
  have htimers : (closeStep st f sub).timers = st.timers.filter (fun x => x != sub) := by
    unfold closeStep
    cases lookupA st.clients f <;> rfl
  refine ⟨?_, htimers, ?_, ?_, ?_⟩
  · unfold closeStep
    cases hl : lookupA st.clients f with
    | none =>
        simp only
        rw [show lookupA st.clients f = none from hl]
        simp only
        rw [filter_ne_idem]
    | some set =>
        simp only
        rw [lookupA_setA_self]
        simp only
        rw [setA_setA, filter_ne_idem, filter_ne_idem]
  · rw [htimers]
    intro hmem
    have := List.of_mem_filter hmem
    simp at this
  · unfold closeV1
    rw [filter_ne_idem, filter_ne_idem]
  · unfold closeV1
    intro hmem
    simp only at hmem
    have := List.of_mem_filter hmem
    simp at this

/-- C2 (amended): in the first server.js variant the fan-out wraps each
write in try/catch, so a write failure to one subscriber is swallowed,
every healthy subscriber still receives the sample, no subscriber is
removed, and the call returns success once the token check passes.  In
the second variant the fan-out loop is unguarded, so a throwing write
aborts delivery to the remaining subscribers and the producer never
receives the success response (see the counterexample). -/
theorem c2_write_failure_swallowed (env : Option String) (hfn : Nat → Bool)
    (st : V1State) (b : Body2) (tok : String) (now : Int)
    (ha : authV1 env tok = true) :
    (ingestV1 env hfn st b tok now).ok = true ∧
    (ingestV1 env hfn st b tok now).deliveries
      = (st.clients.filter hfn).map (fun c => (c, mkSample1 b now)) ∧
    (ingestV1 env hfn st b tok now).state.clients = st.clients := by
  unfold ingestV1
  rw [if_pos ha]
  exact ⟨rfl, rfl, rfl⟩

/-- Witness for C2: with subscriber 1 dead and subscriber 2 healthy,
the first variant still answers ok and delivers to subscriber 2. -/
theorem c2_write_failure_swallowed_witness :
    (authV1 (some "k") "k" = true) ∧
    ((ingestV1 (some "k") (fun n => n == 2) ⟨[1, 2], [1, 2], none⟩
        ⟨"x", none⟩ "k" 9).ok = true ∧
    (ingestV1 (some "k") (fun n => n == 2) ⟨[1, 2], [1, 2], none⟩
        ⟨"x", none⟩ "k" 9).deliveries
      = (([1, 2] : List Nat).filter (fun n => n == 2)).map
          (fun c => (c, mkSample1 ⟨"x", none⟩ 9)) ∧
    (ingestV1 (some "k") (fun n => n == 2) ⟨[1, 2], [1, 2], none⟩
        ⟨"x", none⟩ "k" 9).state.clients = [1, 2]) :=
  ⟨by decide,
    c2_write_failure_swallowed (some "k") (fun n => n == 2) ⟨[1, 2], [1, 2], none⟩
      ⟨"x", none⟩ "k" 9 (by decide)⟩

/-- C2 counterexample: in the second server.js variant, with the dead
subscriber 7 ahead of the healthy subscriber 8 in the channel's set, a
validated ingest neither returns success (the unguarded write throws
before res.status 204 runs) nor delivers to subscriber 8. -/
theorem c2_counterexample :
    (ingestV2 "s" (fun n => n != 7) ⟨[("F", [7, 8])], [], [7, 8]⟩ "F"
        ⟨"x", none⟩ "s" 0).status = none ∧
    (ingestV2 "s" (fun n => n != 7) ⟨[("F", [7, 8])], [], [7, 8]⟩ "F"
        ⟨"x", none⟩ "s" 0).deliveries = [] := by
  decide

/-- C5: an ingest call whose supplied token does not equal the
configured secret fails with Unauthorized (401 in both server.js
variants) or Forbidden (403 in server.mjs) and has no side effects: the
state is returned unchanged and no delivery is made. -/
theorem c5_wrong_token_no_side_effects (secret : String) (hfn : Nat → Bool)
    (st : V2State) (f : String) (b : Body2) (tok : String) (now : Int)
    (envm : Option String) (stm : MjsState) (fm tokm : String)
    (d : MjsBody) (nowm : Int) (env1 : Option String) (st1 : V1State) (tok1 : String)
    (h2 : tok ≠ secret) (hm : tokm ≠ effTokenMjs envm) (h1 : authV1 env1 tok1 = false) :
    ingestV2 secret hfn st f b tok now = ⟨st, [], some 401⟩ ∧
    mjsIngest envm stm fm tokm d nowm = (stm, MjsResult.forbidden) ∧
    ingestV1 env1 hfn st1 b tok1 now = ⟨st1, [], false⟩ := by
  refine ⟨?_, ?_, ?_⟩
  · unfold ingestV2
    rw [if_pos h2]
  · unfold mjsIngest
    rw [if_pos hm]
  · unfold ingestV1
    rw [if_neg (by simp [h1])]

/-- Witness for C5 with concrete wrong tokens in all three variants. -/
theorem c5_wrong_token_no_side_effects_witness :
    (("bad" : String) ≠ "s") ∧
    (("bad" : String) ≠ effTokenMjs none) ∧
    (authV1 none "bad" = false) ∧
    (ingestV2 "s" (fun _ => true) ⟨[("F", [3])], [], [3]⟩ "F" ⟨"x", none⟩ "bad" 0
        = ⟨⟨[("F", [3])], [], [3]⟩, [], some 401⟩ ∧
      mjsIngest none [] "F" "bad"
          ⟨some (JSVal.num 1), some (JSVal.num 2), none, none, none, none, none, none⟩ 0
        = ([], MjsResult.forbidden) ∧
      ingestV1 none (fun _ => true) ⟨[3], [3], none⟩ ⟨"x", none⟩ "bad" 0
        = ⟨⟨[3], [3], none⟩, [], false⟩) :=
  ⟨by decide, by decide, by decide,
    c5_wrong_token_no_side_effects "s" (fun _ => true) ⟨[("F", [3])], [], [3]⟩ "F"
      ⟨"x", none⟩ "bad" 0 none [] "F" "bad"
      ⟨some (JSVal.num 1), some (JSVal.num 2), none, none, none, none, none, none⟩ 0
      none ⟨[3], [3], none⟩ "bad" (by decide) (by decide) (by decide)⟩

/-- C6 (amended): in the second server.js variant the constructed
sample's serverTs is the client-supplied value when one was supplied
and the server receipt time otherwise (body.serverTs ?? now), and the
sample is stored as the flight's latest; the first server.js variant
instead always overwrites serverTs with the server receipt time, even
when the client supplied one (see the counterexample); in server.mjs
(Number(d.serverTs || Date.now())) a nonzero numeric client serverTs
is preserved, but an absent or falsy one (for instance 0) is replaced
by the receipt time and a truthy non-numeric one becomes NaN. -/
theorem c6_serverts (secret : String) (hfn : Nat → Bool) (st : V2State)
    (f : String) (b : Body2) (tok : String) (now : Int)
    (env : Option String) (st1 : V1State) (tok1 : String)
    (htok : tok = secret) (hauth : authV1 env tok1 = true) :
    lookupA (ingestV2 secret hfn st f b tok now).state.latest f
        = some (mkSample2 b now) ∧
    (mkSample2 b now).serverTs = b.serverTs.getD now ∧
    (ingestV1 env hfn st1 b tok1 now).state.lastData = some ⟨b.data, now⟩ ∧
    (ingestV1 env hfn st1 b tok1 now).ok = true ∧
    (∀ (d : MjsBody) (fl : String) (nowm : Int),
      (d.serverTs = none → (mkDatum fl d nowm).serverTs = JSVal.num (nowm : ℚ)) ∧
      (∀ q : ℚ, q ≠ 0 → d.serverTs = some (JSVal.num q) →
        (mkDatum fl d nowm).serverTs = JSVal.num q) ∧
      (d.serverTs = some (JSVal.num 0) →
        (mkDatum fl d nowm).serverTs = JSVal.num (nowm : ℚ)) ∧
      (d.serverTs = some (JSVal.str "abc") →
        (mkDatum fl d nowm).serverTs = JSVal.nan)) := by
  refine ⟨?_, rfl, ?_, ?_, ?_⟩
  · unfold ingestV2
    rw [if_neg (by simp [htok])]
    simp only
    exact lookupA_setA_self st.latest f (mkSample2 b now)
  · unfold ingestV1
    rw [if_pos hauth]
    rfl
  · unfold ingestV1
    rw [if_pos hauth]
  · intro d fl nowm
    refine ⟨?_, ?_, ?_, ?_⟩
    · intro h
      show orNow d.serverTs nowm = JSVal.num (nowm : ℚ)
      rw [h, orNow_none]
    · intro q hq h
      show orNow d.serverTs nowm = JSVal.num q
      rw [h, orNow_truthy _ _ (by simp [truthy, hq])]
      rfl
    · intro h
      show orNow d.serverTs nowm = JSVal.num (nowm : ℚ)
      rw [h, orNow_falsy _ _ (by simp [truthy])]
    · intro h
      show orNow d.serverTs nowm = JSVal.nan
      rw [h, orNow_truthy _ _ (by decide)]
      decide

/-- Witness for C6: a client-supplied serverTs of 5 is preserved by the
second variant and the receipt time is used when none is supplied. -/
theorem c6_serverts_witness :
    (("s" : String) = "s") ∧
    (authV1 (some "k") "k" = true) ∧
    (lookupA (ingestV2 "s" (fun _ => true) ⟨[], [], []⟩ "F" ⟨"x", some 5⟩ "s" 100).state.latest "F"
        = some (mkSample2 ⟨"x", some 5⟩ 100) ∧
      (mkSample2 ⟨"x", some 5⟩ 100).serverTs = (Option.some (5 : Int)).getD 100 ∧
      (ingestV1 (some "k") (fun _ => true) ⟨[], [], none⟩ ⟨"x", some 5⟩ "k" 100).state.lastData
        = some ⟨"x", 100⟩ ∧
      (ingestV1 (some "k") (fun _ => true) ⟨[], [], none⟩ ⟨"x", some 5⟩ "k" 100).ok = true ∧
      (∀ (d : MjsBody) (fl : String) (nowm : Int),
        (d.serverTs = none → (mkDatum fl d nowm).serverTs = JSVal.num (nowm : ℚ)) ∧
        (∀ q : ℚ, q ≠ 0 → d.serverTs = some (JSVal.num q) →
          (mkDatum fl d nowm).serverTs = JSVal.num q) ∧
        (d.serverTs = some (JSVal.num 0) →
          (mkDatum fl d nowm).serverTs = JSVal.num (nowm : ℚ)) ∧
        (d.serverTs = some (JSVal.str "abc") →
          (mkDatum fl d nowm).serverTs = JSVal.nan))) :=
  ⟨rfl, by decide,
    c6_serverts "s" (fun _ => true) ⟨[], [], []⟩ "F" ⟨"x", some 5⟩ "s" 100
      (some "k") ⟨[], [], none⟩ "k" rfl (by decide)⟩

/-- C6 counterexample: a successful ingest in the first server.js
variant with client-supplied serverTs 5 at receipt time 100 stores
serverTs 100, not the client value — serverTs is overwritten
unconditionally. -/
theorem c6_counterexample :
    (ingestV1 (some "tok1") (fun _ => true) ⟨[], [], none⟩ ⟨"x", some 5⟩ "tok1" 100).ok
        = true ∧
    (ingestV1 (some "tok1") (fun _ => true) ⟨[], [], none⟩ ⟨"x", some 5⟩ "tok1" 100).state.lastData
        = some ⟨"x", 100⟩ ∧
    (⟨"x", (100 : Int)⟩ : Sample2) ≠ ⟨"x", 5⟩ := by
  decide

/-- C3 (amended): in server.mjs an ingest whose payload has lat or lon
missing or not of JavaScript number type fails with BadRequest and
leaves liveData unchanged; values of number type that are not finite
(NaN and the infinities) pass the typeof check (see the
counterexample), and the second server.js variant performs no lat/lon
validation at all: a validated-token ingest succeeds with 204 for any
body when every subscriber write succeeds. -/
theorem c3_latlon_type_gate (env : Option String) (st : MjsState)
    (flight token : String) (d : MjsBody) (now : Int)
    (htok : token = effTokenMjs env)
    (hbad : isNumberType d.lat = false ∨ isNumberType d.lon = false) :
    mjsIngest env st flight token d now = (st, MjsResult.badRequest) ∧
    ∀ (secret : String) (st2 : V2State) (f2 : String) (b : Body2) (now2 : Int),
      (ingestV2 secret (fun _ => true) st2 f2 b secret now2).status = some 204 := by
  constructor
  · unfold mjsIngest
    rw [if_neg (by simp [htok]), if_pos hbad]
  · intro secret st2 f2 b now2
    unfold ingestV2
    rw [if_neg (by simp), sendLoop_true]
    rfl

/-- Witness for C3: a string lat is rejected with BadRequest and
liveData stays empty. -/
theorem c3_latlon_type_gate_witness :
    (("changeme-ingest-token" : String) = effTokenMjs none) ∧
    (isNumberType (some (JSVal.str "not a number")) = false ∨
      isNumberType (some (JSVal.num 0)) = false) ∧
    (mjsIngest none [] "F" "changeme-ingest-token"
        ⟨some (JSVal.str "not a number"), some (JSVal.num 0),
          none, none, none, none, none, none⟩ 3
      = ([], MjsResult.badRequest) ∧
    ∀ (secret : String) (st2 : V2State) (f2 : String) (b : Body2) (now2 : Int),
      (ingestV2 secret (fun _ => true) st2 f2 b secret now2).status = some 204) :=
  ⟨by decide, by decide,
    c3_latlon_type_gate none [] "F" "changeme-ingest-token"
      ⟨some (JSVal.str "not a number"), some (JSVal.num 0),
        none, none, none, none, none, none⟩ 3 (by decide) (by decide)⟩

/-- C3 counterexample: an ingest with lat equal to NaN — a number that
is not finite — passes the typeof gate of server.mjs, returns ok and
updates liveData, contradicting the claim that every non-finite lat
fails with BadRequest and leaves the last sample unchanged. -/
theorem c3_counterexample :
    (mjsIngest none [] "F" "changeme-ingest-token"
        ⟨some JSVal.nan, some (JSVal.num 0), none, none, none, none, none, none⟩ 3).2
      = MjsResult.ok ∧
    (mjsIngest none [] "F" "changeme-ingest-token"
        ⟨some JSVal.nan, some (JSVal.num 0), none, none, none, none, none, none⟩ 3).1
      ≠ ([] : MjsState) := by
  decide

/-- C7 (amended): on a successful mjs ingest the stored datum is the
normalised construction, and each optional field equals the
client-supplied numeric value when a number was supplied and 0 when
the field is absent; a truthy non-numeric value is coerced with Number
and yields NaN rather than 0 (see the counterexample). -/
theorem c7_optional_fields (env : Option String) (st st2 : MjsState)
    (flight token : String) (d : MjsBody) (now : Int)
    (hok : mjsIngest env st flight token d now = (st2, MjsResult.ok)) :
    lookupA st2 flight = some (mkDatum flight d now) ∧
    ((d.alt_ft = none → (mkDatum flight d now).alt_ft = JSVal.num 0) ∧
      ∀ q, d.alt_ft = some (JSVal.num q) → (mkDatum flight d now).alt_ft = JSVal.num q) ∧
    ((d.hdg_deg = none → (mkDatum flight d now).hdg_deg = JSVal.num 0) ∧
      ∀ q, d.hdg_deg = some (JSVal.num q) → (mkDatum flight d now).hdg_deg = JSVal.num q) ∧
    ((d.gs_kts = none → (mkDatum flight d now).gs_kts = JSVal.num 0) ∧
      ∀ q, d.gs_kts = some (JSVal.num q) → (mkDatum flight d now).gs_kts = JSVal.num q) ∧
    ((d.vs_fpm = none → (mkDatum flight d now).vs_fpm = JSVal.num 0) ∧
      ∀ q, d.vs_fpm = some (JSVal.num q) → (mkDatum flight d now).vs_fpm = JSVal.num q) ∧
    ((d.tas_kts = none → (mkDatum flight d now).tas_kts = JSVal.num 0) ∧
      ∀ q, d.tas_kts = some (JSVal.num q) → (mkDatum flight d now).tas_kts = JSVal.num q) := by
  have hst2 : st2 = setA st flight (mkDatum flight d now) := by
    unfold mjsIngest at hok
    by_cases h1 : token ≠ effTokenMjs env
    · rw [if_pos h1] at hok
      exact absurd (congrArg Prod.snd hok) (by simp)
    · rw [if_neg h1] at hok
      by_cases h2 : isNumberType d.lat = false ∨ isNumberType d.lon = false
      · rw [if_pos h2] at hok
        exact absurd (congrArg Prod.snd hok) (by simp)
      · rw [if_neg h2] at hok
        exact (congrArg Prod.fst hok).symm
  refine ⟨by rw [hst2]; exact lookupA_setA_self st flight (mkDatum flight d now),
    ⟨?_, ?_⟩, ⟨?_, ?_⟩, ⟨?_, ?_⟩, ⟨?_, ?_⟩, ⟨?_, ?_⟩⟩
  · intro h
    show orZero d.alt_ft = JSVal.num 0
    rw [h, orZero_none]
  · intro q h
    show orZero d.alt_ft = JSVal.num q
    rw [h, orZero_num]
  · intro h
    show orZero d.hdg_deg = JSVal.num 0
    rw [h, orZero_none]
  · intro q h
    show orZero d.hdg_deg = JSVal.num q
    rw [h, orZero_num]
  · intro h
    show orZero d.gs_kts = JSVal.num 0
    rw [h, orZero_none]
  · intro q h
    show orZero d.gs_kts = JSVal.num q
    rw [h, orZero_num]
  · intro h
    show orZero d.vs_fpm = JSVal.num 0
    rw [h, orZero_none]
  · intro q h
    show orZero d.vs_fpm = JSVal.num q
    rw [h, orZero_num]
  · intro h
    show orZero d.tas_kts = JSVal.num 0
    rw [h, orZero_none]
  · intro q h
    show orZero d.tas_kts = JSVal.num q
    rw [h, orZero_num]

/-- Witness for C7: a supplied alt_ft of 9 is kept, the other optional
fields default to 0. -/
theorem c7_optional_fields_witness :
    (mjsIngest none [] "F" "changeme-ingest-token"
        ⟨some (JSVal.num 1), some (JSVal.num 2), some (JSVal.num 9),
          none, none, none, none, none⟩ 3
      = ([("F", mkDatum "F"
            ⟨some (JSVal.num 1), some (JSVal.num 2), some (JSVal.num 9),
              none, none, none, none, none⟩ 3)], MjsResult.ok)) ∧
    (lookupA [("F", mkDatum "F"
          ⟨some (JSVal.num 1), some (JSVal.num 2), some (JSVal.num 9),
            none, none, none, none, none⟩ 3)] "F"
        = some (mkDatum "F"
            ⟨some (JSVal.num 1), some (JSVal.num 2), some (JSVal.num 9),
              none, none, none, none, none⟩ 3)) ∧
    (mkDatum "F" ⟨some (JSVal.num 1), some (JSVal.num 2), some (JSVal.num 9),
        none, none, none, none, none⟩ 3).alt_ft = JSVal.num 9 ∧
    (mkDatum "F" ⟨some (JSVal.num 1), some (JSVal.num 2), some (JSVal.num 9),
        none, none, none, none, none⟩ 3).hdg_deg = JSVal.num 0 :=
  ⟨by decide,
    (c7_optional_fields none []
        [("F", mkDatum "F"
          ⟨some (JSVal.num 1), some (JSVal.num 2), some (JSVal.num 9),
            none, none, none, none, none⟩ 3)] "F" "changeme-ingest-token"
        ⟨some (JSVal.num 1), some (JSVal.num 2), some (JSVal.num 9),
          none, none, none, none, none⟩ 3 (by decide)).1,
    (c7_optional_fields none []
        [("F", mkDatum "F"
          ⟨some (JSVal.num 1), some (JSVal.num 2), some (JSVal.num 9),
            none, none, none, none, none⟩ 3)] "F" "changeme-ingest-token"
        ⟨some (JSVal.num 1), some (JSVal.num 2), some (JSVal.num 9),
          none, none, none, none, none⟩ 3 (by decide)).2.1.2 9 rfl,
    (c7_optional_fields none []
        [("F", mkDatum "F"
          ⟨some (JSVal.num 1), some (JSVal.num 2), some (JSVal.num 9),
            none, none, none, none, none⟩ 3)] "F" "changeme-ingest-token"
        ⟨some (JSVal.num 1), some (JSVal.num 2), some (JSVal.num 9),
          none, none, none, none, none⟩ 3 (by decide)).2.2.1.1 rfl⟩

/-- C7 counterexample: a truthy non-numeric alt_ft (the string abc)
yields NaN in the stored datum, not the 0 the claim requires for a
non-numeric field. -/
theorem c7_counterexample :
    (mjsIngest none [] "F" "changeme-ingest-token"
        ⟨some (JSVal.num 1), some (JSVal.num 2), some (JSVal.str "abc"),
          none, none, none, none, none⟩ 3).2 = MjsResult.ok ∧
    ((lookupA (mjsIngest none [] "F" "changeme-ingest-token"
        ⟨some (JSVal.num 1), some (JSVal.num 2), some (JSVal.str "abc"),
          none, none, none, none, none⟩ 3).1 "F").map MjsDatum.alt_ft)
      = some JSVal.nan ∧
    JSVal.nan ≠ JSVal.num 0 := by
  decide

/-- C10: when the INGEST_TOKEN environment variable is unset, server.mjs
and the second server.js variant fall back to a compiled-in default
secret, so supplying that default passes authentication (the second
variant never answers 401 for it, server.mjs accepts a valid body);
the first server.js variant instead rejects every ingest call with 401
regardless of the supplied token, with no state change and no
delivery. -/
theorem c10_env_unset_defaults (hfn : Nat → Bool) (st : V2State) (f : String)
    (b : Body2) (now : Int) :
    (ingestV2 (effTokenV2 none) hfn st f b "449a6c2b8a4361a5f5c6058ad56c4a1e" now).status
        ≠ some 401 ∧
    (mjsIngest none [] "F" "changeme-ingest-token"
        ⟨some (JSVal.num 1), some (JSVal.num 2), none, none, none, none, none, none⟩ 0).2
        = MjsResult.ok ∧
    (∀ (st1 : V1State) (tok : String),
      ingestV1 none hfn st1 b tok now = ⟨st1, [], false⟩) := by
  refine ⟨?_, by decide, ?_⟩
  · unfold ingestV2
    rw [if_neg (by decide)]
    simp only
    cases hsent : (sendLoop hfn (clientsOf st f)).2 <;> simp
  · intro st1 tok
    unfold ingestV1
    rw [if_neg (by simp [authV1])]

end Flightracker
